import Mathlib

/-!
Verification of the audio transport pipeline of the video-call application:
wire codec (packet header encode/decode), transmitter fragmentation,
receiver reassembly and loss accounting, and the adaptive buffering
controller.  Byte buffers are modelled as `List Nat` (each element one
octet), machine integers as `Nat`/`Int`, and float-valued means as `ℚ`.
-/

namespace AudioCallApp

/-! ## Wire codec (src/audio_transmission.py `_create_audio_packet` header,
src/audio_receiver.py `_parse_audio_packet`)

The header is `struct.pack('!4sIQHHI', ...)`: big-endian, 4 magic bytes,
uint32 sequence, uint64 timestamp in microseconds, uint16 fragment index,
uint16 total fragments, uint32 payload length — 24 bytes in total. -/

/-- Big-endian reading of a byte list as an unsigned integer
(the effect of `struct.unpack` on one field). -/
def rdBE (bs : List Nat) : Nat := bs.foldl (fun a b => a * 256 + b) 0

/-- Big-endian encoding of `n` into exactly `k` bytes
(the effect of `struct.pack` on one field, for `n < 256 ^ k`). -/
def beBytes : Nat → Nat → List Nat
  | 0, _ => []
  | k + 1, n => beBytes k (n / 256) ++ [n % 256]

/-- The magic marker `b'OODA'` as bytes. -/
def oodaMagic : List Nat := [79, 79, 68, 65]

/-- Fixed header size in bytes (`24` in both source files). -/
def headerSize : Nat := 24

/-- `struct.pack('!4sIQHHI', b'OODA', sequence, timestamp_us, fragment_index,
total_fragments, data_length)` from `_create_audio_packet`. -/
def packHeader (sequence timestampUs fragmentIndex totalFragments dataLength : Nat) :
    List Nat :=
  oodaMagic ++ beBytes 4 sequence ++ beBytes 8 timestampUs ++
    beBytes 2 fragmentIndex ++ beBytes 2 totalFragments ++ beBytes 4 dataLength

/-- The header fields of one packet plus its payload bytes. -/
structure PacketFields where
  sequence : Nat
  timestampUs : Nat
  fragmentIndex : Nat
  totalFragments : Nat
  payload : List Nat
deriving DecidableEq

/-- Full packet bytes: header followed by the fragment's payload
(`packet = header + fragment_data` in `_create_audio_packet`). -/
def encodePacket (f : PacketFields) : List Nat :=
  packHeader f.sequence f.timestampUs f.fragmentIndex f.totalFragments
    f.payload.length ++ f.payload

/-- `AudioReceiver._parse_audio_packet`: reject buffers shorter than 24
bytes, wrong magic, and a declared data length whose slice
`packet_data[24:24+data_length]` comes back shorter than declared.  The
Python code returns the timestamp divided by 10^6 (seconds); we return the
raw microsecond header field, the unit conversion being a presentational
scaling of the same parsed value. -/
def parseAudioPacket (p : List Nat) : Option PacketFields :=
  if p.length < headerSize then none
  else
    let magic := p.take 4
    let sequence := rdBE ((p.drop 4).take 4)
    let timestampUs := rdBE ((p.drop 8).take 8)
    let fragmentIndex := rdBE ((p.drop 16).take 2)
    let totalFragments := rdBE ((p.drop 18).take 2)
    let dataLength := rdBE ((p.drop 20).take 4)
    if magic ≠ oodaMagic then none
    else
      let audioData := (p.drop 24).take dataLength
      if audioData.length ≠ dataLength then none
      else some ⟨sequence, timestampUs, fragmentIndex, totalFragments, audioData⟩

/-- The `data_length` field as `_parse_audio_packet` reads it from a raw buffer. -/
def parsedDataLength (p : List Nat) : Nat := rdBE ((p.drop 20).take 4)

/-! ## Transmitter fragmentation (src/audio_transmission.py
`AudioTransmission._create_audio_packet`)

`max_audio_size = max_packet_size - 24`;
`total_fragments = (len(audio_bytes) + max_audio_size - 1) // max_audio_size`;
fragment `i` is `audio_bytes[i*max_audio_size : min((i+1)*max_audio_size, len)]`,
and each loop iteration takes a fresh value of `self.sequence_number`
(`sequence = self.sequence_number; self.sequence_number += 1`), so fragment
`i` of a chunk submitted at counter value `seqStart` carries sequence
`seqStart + i`. -/
def createAudioPacketFields (maxPacketSize : Nat) (audioBytes : List Nat)
    (timestampUs seqStart : Nat) : List PacketFields :=
  let maxAudioSize := maxPacketSize - headerSize
  let totalFragments := (audioBytes.length + maxAudioSize - 1) / maxAudioSize
  (List.range totalFragments).map fun fragmentIndex =>
    { sequence := seqStart + fragmentIndex
      timestampUs := timestampUs
      fragmentIndex := fragmentIndex
      totalFragments := totalFragments
      payload := (audioBytes.drop (fragmentIndex * maxAudioSize)).take maxAudioSize }

/-- The byte-level packets returned by `_create_audio_packet`. -/
def createAudioPacket (maxPacketSize : Nat) (audioBytes : List Nat)
    (timestampUs seqStart : Nat) : List (List Nat) :=
  (createAudioPacketFields maxPacketSize audioBytes timestampUs seqStart).map encodePacket

/-! ## Reassembly (src/audio_receiver.py `AudioReceiver._reassemble_audio_packet`)

`self.packet_fragments` is a `defaultdict(dict)` mapping a frame sequence
number to a dict from fragment index to the received bytes.  We model both
dict levels as association lists with insert-or-replace update, which keeps
keys distinct exactly as a Python dict does. -/

/-- Dict lookup on an association list. -/
def lookupKey {α : Type} : List (Nat × α) → Nat → Option α
  | [], _ => none
  | (k', v') :: rest, k => if k' = k then some v' else lookupKey rest k

/-- Dict assignment `m[k] = v`: replace the binding if the key is present,
otherwise append a new binding. -/
def upsert {α : Type} : List (Nat × α) → Nat → α → List (Nat × α)
  | [], k, v => [(k, v)]
  | (k', v') :: rest, k, v =>
      if k' = k then (k, v) :: rest else (k', v') :: upsert rest k v

/-- Dict deletion `del m[k]` (keys are distinct, so removing the first
binding is exact). -/
def removeKey {α : Type} : List (Nat × α) → Nat → List (Nat × α)
  | [], _ => []
  | (k', v') :: rest, k =>
      if k' = k then rest else (k', v') :: removeKey rest k

/-- One frame's partial fragment dict: fragment index → fragment bytes. -/
abbrev FragEntry := List (Nat × List Nat)

/-- The receiver's `packet_fragments` map: frame sequence → `FragEntry`. -/
abbrev FragStore := List (Nat × FragEntry)

/-- The reassembly loop `for i in range(total_fragments)` concatenating the
stored fragments in index order, failing if any index is absent. -/
def collectFragments (entry : FragEntry) : Nat → Option (List Nat)
  | 0 => some []
  | i + 1 => do
      let pre ← collectFragments entry i
      let d ← lookupKey entry i
      pure (pre ++ d)

/-- `_reassemble_audio_packet`: store the fragment, and if the entry now
holds `total_fragments` fragments, concatenate indices `0..total_fragments-1`
and delete the entry; the completed payload (if any) is the second
component.  No other path ever removes an entry from the store. -/
def reassembleAudioPacket (store : FragStore)
    (sequence fragmentIndex totalFragments : Nat) (fragmentData : List Nat) :
    FragStore × Option (List Nat) :=
  let entry := upsert ((lookupKey store sequence).getD []) fragmentIndex fragmentData
  let store' := upsert store sequence entry
  if entry.length = totalFragments then
    match collectFragments entry totalFragments with
    | some complete => (removeKey store' sequence, some complete)
    | none => (store', none)
  else (store', none)

/-- Feeding the receiver one incomplete frame per pass: fragment 0 of a
2-fragment frame for each of the sequences `0, 1, ..., n-1`, starting
from an empty fragment map. -/
def runIncompleteFrames : Nat → FragStore
  | 0 => []
  | n + 1 => (reassembleAudioPacket (runIncompleteFrames n) n 0 2 []).1

/-! ## Loss accounting (src/audio_receiver.py `AudioReceiver._reception_worker`)

```
if self.last_sequence >= 0 and sequence > self.last_sequence + 1:
    self.packets_lost += sequence - self.last_sequence - 1
self.last_sequence = max(self.last_sequence, sequence)
```
`start_reception` resets `packets_lost = 0` and `last_sequence = -1`. -/

/-- The reception worker's loss-tracking state. -/
structure RecvLossState where
  lastSequence : Int
  packetsLost : Int
deriving DecidableEq

/-- The state `start_reception` establishes:
`packets_lost = 0`, `last_sequence = -1`. -/
def startReceptionState : RecvLossState := { lastSequence := -1, packetsLost := 0 }

/-- Loss accounting for one successfully decoded packet. -/
def lossStep (st : RecvLossState) (sequence : Nat) : RecvLossState :=
  let lost :=
    if 0 ≤ st.lastSequence ∧ st.lastSequence + 1 < (sequence : Int) then
      st.packetsLost + ((sequence : Int) - st.lastSequence - 1)
    else st.packetsLost
  { lastSequence := max st.lastSequence (sequence : Int), packetsLost := lost }

/-- Loss accounting over a list of decoded packet sequence numbers in
arrival order. -/
def processSequences (st : RecvLossState) (seqs : List Nat) : RecvLossState :=
  seqs.foldl lossStep st

/-! ## Adaptive synchronizer (src/audio_synchronizer.py)

Float-valued samples and their means are modelled as `ℚ`; buffer sizes are
Python ints, modelled as `Int`.  Only the state read or written by the
buffer-size control path is carried. -/

/-- The synchronizer state relevant to buffer-depth control. -/
structure AudioSynchronizer where
  targetLatencyMs : ℚ
  maxLatencyMs : ℚ
  minBufferSize : Int
  maxBufferSize : Int
  jitterThresholdMs : ℚ
  latencySamples : List ℚ
  jitterSamples : List ℚ
  packetLossSamples : List ℚ
  currentBufferSize : Int
  syncAdjustments : Int
deriving DecidableEq

/-- `AudioSynchronizer.__init__`: empty sample windows,
`current_buffer_size = (min_buffer_size + max_buffer_size) // 2` (operands
are nonnegative in every use, where Python floor division and `Int` division
agree), `sync_adjustments = 0`. -/
def mkAudioSynchronizer (targetLatencyMs maxLatencyMs : ℚ)
    (minBufferSize maxBufferSize : Int) (jitterThresholdMs : ℚ) :
    AudioSynchronizer :=
  { targetLatencyMs := targetLatencyMs
    maxLatencyMs := maxLatencyMs
    minBufferSize := minBufferSize
    maxBufferSize := maxBufferSize
    jitterThresholdMs := jitterThresholdMs
    latencySamples := []
    jitterSamples := []
    packetLossSamples := []
    currentBufferSize := (minBufferSize + maxBufferSize) / 2
    syncAdjustments := 0 }

/-- `statistics.mean`. -/
def listMean (l : List ℚ) : ℚ := l.sum / l.length

/-- `get_current_latency`: mean of the latency window, `0` when empty. -/
def getCurrentLatency (s : AudioSynchronizer) : ℚ :=
  if s.latencySamples = [] then 0 else listMean s.latencySamples

/-- `get_current_jitter`: mean of the jitter window, `0` when empty. -/
def getCurrentJitter (s : AudioSynchronizer) : ℚ :=
  if s.jitterSamples = [] then 0 else listMean s.jitterSamples

/-- `get_current_packet_loss`: mean of the loss window, `0` when empty. -/
def getCurrentPacketLoss (s : AudioSynchronizer) : ℚ :=
  if s.packetLossSamples = [] then 0 else listMean s.packetLossSamples

/-- `_calculate_optimal_buffer_size`: start from the current size and apply
the latency, jitter, and loss rules in order, each rule clamping its own
result (`max(self.min_buffer_size, ...)` for decreases,
`min(self.max_buffer_size, ...)` for increases) as written in the source. -/
def calculateOptimalBufferSize (s : AudioSynchronizer) : Int :=
  let currentLatency := getCurrentLatency s
  let currentJitter := getCurrentJitter s
  let packetLoss := getCurrentPacketLoss s
  let optimal := s.currentBufferSize
  let optimal :=
    if s.maxLatencyMs < currentLatency then max s.minBufferSize (optimal - 2)
    else if currentLatency < s.targetLatencyMs * (1 / 2) then
      min s.maxBufferSize (optimal + 1)
    else optimal
  let optimal :=
    if s.jitterThresholdMs < currentJitter then min s.maxBufferSize (optimal + 1)
    else optimal
  let optimal :=
    if (5 : ℚ) < packetLoss then min s.maxBufferSize (optimal + 2)
    else if packetLoss < 1 then max s.minBufferSize (optimal - 1)
    else optimal
  optimal

/-- `_adjust_buffer_size`: if the computed size differs from the current
one, commit it, increment `sync_adjustments`, and invoke the buffer-size
callback with the new value (the `Option Int` component); otherwise leave
the state alone and invoke nothing. -/
def adjustBufferSize (s : AudioSynchronizer) : AudioSynchronizer × Option Int :=
  let optimal := calculateOptimalBufferSize s
  if optimal ≠ s.currentBufferSize then
    ({ s with currentBufferSize := optimal, syncAdjustments := s.syncAdjustments + 1 },
      some optimal)
  else (s, none)

/-- `force_buffer_adjustment`: reject a requested size outside
`[min_buffer_size, max_buffer_size]` (no state change, no callback),
otherwise set it and invoke the callback with it. -/
def forceBufferAdjustment (s : AudioSynchronizer) (newSize : Int) :
    AudioSynchronizer × Option Int :=
  if newSize < s.minBufferSize ∨ s.maxBufferSize < newSize then (s, none)
  else ({ s with currentBufferSize := newSize }, some newSize)

/-! Spec-side candidate computations for comparison with
`calculateOptimalBufferSize` (claim C5). -/

/-- The latency adjustment of §4.4 as a signed delta:
`-2` above `max_latency`, `+1` below half the target, else `0`. -/
def latencyDelta (s : AudioSynchronizer) : Int :=
  if s.maxLatencyMs < getCurrentLatency s then -2
  else if getCurrentLatency s < s.targetLatencyMs * (1 / 2) then 1
  else 0

/-- The jitter adjustment of §4.4 as a signed delta:
`+1` above `jitter_threshold`, else `0`. -/
def jitterDelta (s : AudioSynchronizer) : Int :=
  if s.jitterThresholdMs < getCurrentJitter s then 1 else 0

/-- The loss adjustment of §4.4 as a signed delta:
`+2` above 5 percent, `-1` below 1 percent, else `0`. -/
def lossDelta (s : AudioSynchronizer) : Int :=
  if (5 : ℚ) < getCurrentPacketLoss s then 2
  else if getCurrentPacketLoss s < 1 then -1
  else 0

/-- Candidate buffer depth following the claim's words: apply the three
deltas in order and clamp the result to `[min_buffer, max_buffer]` once at
the end. -/
def specCandidateFinalClamp (s : AudioSynchronizer) : Int :=
  min s.maxBufferSize (max s.minBufferSize
    (s.currentBufferSize + latencyDelta s + jitterDelta s + lossDelta s))

/-- One amended adjustment step: a decrease is floored at `minB` as it is
applied, an increase is capped at `maxB` as it is applied, a zero delta
leaves the value untouched. -/
def applyClampedDelta (minB maxB : Int) (x d : Int) : Int :=
  if d < 0 then max minB (x + d)
  else if 0 < d then min maxB (x + d)
  else x

/-- Candidate buffer depth following the amended claim: the three deltas
applied in order, each clamped immediately as it is applied. -/
def specCandidateStepwise (s : AudioSynchronizer) : Int :=
  [latencyDelta s, jitterDelta s, lossDelta s].foldl
    (applyClampedDelta s.minBufferSize s.maxBufferSize) s.currentBufferSize

/-! ## Receiver playback buffer capacity (src/audio_receiver.py `__init__`,
src/audio_call_app.py `buffer_size_callback`)

`AudioReceiver.__init__` creates `self.audio_buffer =
queue.Queue(maxsize=buffer_size)`; the `maxsize` of that queue is never
touched again.  The application's `buffer_size_callback` runs
`self.audio_receiver.buffer_size = new_size`, a plain attribute write. -/

/-- The receiver state relevant to playback-queue capacity: the
`buffer_size` attribute, the `audio_buffer` queue's fixed `maxsize`, and
its current occupancy. -/
structure AudioReceiverState where
  bufferSize : Nat
  audioBufferMax : Nat
  audioBufferLen : Nat
deriving DecidableEq

/-- `AudioReceiver.__init__(buffer_size=...)`: the attribute and the queue
capacity both start at `buffer_size`; the queue starts empty. -/
def mkAudioReceiver (bufferSize : Nat) : AudioReceiverState :=
  { bufferSize := bufferSize, audioBufferMax := bufferSize, audioBufferLen := 0 }

/-- `buffer_size_callback(new_size)` in `audio_call_app.py`: assigns the
`buffer_size` attribute and nothing else. -/
def bufferSizeCallback (r : AudioReceiverState) (newSize : Nat) : AudioReceiverState :=
  { r with bufferSize := newSize }

/-- `self.audio_buffer.put_nowait(...)`: accepted (`true`) only while the
occupancy is below the queue's `maxsize`; a full queue rejects the item. -/
def audioBufferPutNowait (r : AudioReceiverState) : AudioReceiverState × Bool :=
  if r.audioBufferLen < r.audioBufferMax then
    ({ r with audioBufferLen := r.audioBufferLen + 1 }, true)
  else (r, false)

/-- `audioBufferPutNowait` iterated `n` times. -/
def putNowaitN (r : AudioReceiverState) : Nat → AudioReceiverState
  | 0 => r
  | n + 1 => (audioBufferPutNowait (putNowaitN r n)).1

/-! Concrete states used to evaluate the code at specific inputs. -/

/-- A synchronizer with the constructor defaults (`target 50`, `max 200`,
bounds `[3, 20]`, jitter threshold `10`) whose windows hold a latency mean
of 300 ms (above `max_latency`), no jitter samples, and a loss mean of
10 percent (above 5 percent), with current depth at the minimum `3`. -/
def syncHighLatencyHighLoss : AudioSynchronizer :=
  { targetLatencyMs := 50
    maxLatencyMs := 200
    minBufferSize := 3
    maxBufferSize := 20
    jitterThresholdMs := 10
    latencySamples := [300]
    jitterSamples := []
    packetLossSamples := [10]
    currentBufferSize := 3
    syncAdjustments := 0 }

/-- A 25-byte buffer: a well-formed header declaring `data_length = 0` for
a single-fragment frame, followed by one extra trailing byte. -/
def bufferWithExtraTail : List Nat := packHeader 0 0 0 1 0 ++ [7]

/-! ## Theorems -/

/-- C1: a chunk of 1377 bytes at `max_packet_size = 1400` splits into two
fragments, and `_create_audio_packet` stamps them with sequence numbers 0
and 1 — a fresh counter value per fragment, not one shared value per
chunk.  Fragment indices and totals are correct, but the frame sequence
number differs between the two fragments of the same chunk. -/
theorem c1_fragments_carry_distinct_sequences :
    ((createAudioPacketFields 1400 (List.replicate 1377 0) 0 0).map
      (fun f => (f.sequence, f.fragmentIndex, f.totalFragments)))
      = [(0, 0, 2), (1, 1, 2)] := by
  simp only [createAudioPacketFields, List.length_replicate, headerSize]
  decide

/-- C2: on a receiver constructed with `buffer_size = 3` whose playback
queue holds 3 chunks, running the application's `buffer_size_callback`
with the new recommendation 5 updates only the `buffer_size` attribute;
the queue's `maxsize` stays 3 and a subsequent `put_nowait` is still
rejected, so the effective capacity never becomes the recommended value. -/
theorem c2_recommendation_stored_as_attribute_only :
    (bufferSizeCallback (putNowaitN (mkAudioReceiver 3) 3) 5).bufferSize = 5 ∧
    (bufferSizeCallback (putNowaitN (mkAudioReceiver 3) 3) 5).audioBufferMax = 3 ∧
    (audioBufferPutNowait (bufferSizeCallback (putNowaitN (mkAudioReceiver 3) 3) 5)).2
      = false := by decide

/-- Lookup misses when no binding carries the key. -/
theorem lookupKey_eq_none {α : Type} (m : List (Nat × α)) (k : Nat)
    (h : ∀ p ∈ m, p.1 ≠ k) : lookupKey m k = none := by
  induction m with
  | nil => rfl
  | cons hd tl ih =>
    obtain ⟨k', v'⟩ := hd
    have hne : k' ≠ k := h (k', v') (by simp)
    rw [lookupKey, if_neg hne]
    exact ih fun p hp => h p (by simp [hp])

/-- Inserting an absent key appends the binding at the end. -/
theorem upsert_of_absent {α : Type} (m : List (Nat × α)) (k : Nat) (v : α)
    (h : ∀ p ∈ m, p.1 ≠ k) : upsert m k v = m ++ [(k, v)] := by
  induction m with
  | nil => rfl
  | cons hd tl ih =>
    obtain ⟨k', v'⟩ := hd
    have hne : k' ≠ k := h (k', v') (by simp)
    rw [upsert, if_neg hne, ih fun p hp => h p (by simp [hp])]
    rfl

/-- Closed form of `runIncompleteFrames`: after `n` passes the fragment
map holds one single-fragment entry per sequence `0..n-1`. -/
theorem runIncompleteFrames_closed (n : Nat) :
    runIncompleteFrames n
      = (List.range n).map (fun i => (i, [(0, ([] : List Nat))])) := by
  induction n with
  | zero => rfl
  | succ n ih =>
    have hmem : ∀ p ∈ (List.range n).map
        (fun i => (i, [(0, ([] : List Nat))])), p.1 ≠ n := by
      intro p hp
      simp only [List.mem_map, List.mem_range] at hp
      obtain ⟨i, hi, rfl⟩ := hp
      simpa using Nat.ne_of_lt hi
    rw [runIncompleteFrames, ih]
    have hlk : lookupKey
        ((List.range n).map fun i => (i, [(0, ([] : List Nat))])) n = none :=
      lookupKey_eq_none _ _ hmem
    rw [reassembleAudioPacket]
    simp only [hlk, Option.getD_none]
    rw [upsert_of_absent _ _ _ hmem]
    simp [List.range_succ, upsert]

/-- C3: the code has no reassembly timeout at all — the only removal path
in `_reassemble_audio_packet` is frame completion, and no sweep of
`packet_fragments` exists anywhere in `AudioReceiver`.  Feeding one
incomplete frame (fragment 0 of 2) per distinct sequence leaves every one
of the `n` incomplete entries in the fragment map, for every `n`: memory
grows without bound under sustained partial-fragment loss, contradicting
the claimed eviction-after-timeout invariant. -/
theorem c3_incomplete_entries_never_evicted (n : Nat) :
    runIncompleteFrames n
      = (List.range n).map (fun i => (i, [(0, ([] : List Nat))])) ∧
    (runIncompleteFrames n).length = n := by
  refine ⟨runIncompleteFrames_closed n, ?_⟩
  rw [runIncompleteFrames_closed n]
  simp

/-- C4 counterexample: for the empty payload (`S = 0`) the transmitter
produces `total_fragments = (0 + 1375) // 1376 = 0` and emits no packet at
all, contradicting the claim's "always at least 1, even when S = 0". -/
theorem c4_counterexample_empty_payload :
    createAudioPacketFields 1400 [] 0 0 = [] ∧
    ¬ 1 ≤ (createAudioPacket 1400 [] 0 0).length := by decide

/-- Splitting a list into `⌈length/C⌉` chunks of `C` and concatenating
them in order reproduces the list (stated with a fuel bound on the length
for the induction). -/
theorem join_take_drop_chunks (C : Nat) (hC : 0 < C) :
    ∀ (n : Nat) (l : List Nat), l.length ≤ n →
      ((List.range ((l.length + C - 1) / C)).map
        (fun i => (l.drop (i * C)).take C)).flatten = l := by
  intro n
  induction n with
  | zero =>
    intro l hl
    have hnil : l = [] := List.length_eq_zero.mp (Nat.le_zero.mp hl)
    subst hnil
    have h0 : (0 + C - 1) / C = 0 := Nat.div_eq_of_lt (by omega)
    simp [h0]
  | succ n ih =>
    intro l hl
    by_cases hnil : l = []
    · subst hnil
      have h0 : (0 + C - 1) / C = 0 := Nat.div_eq_of_lt (by omega)
      simp [h0]
    · have hpos : 0 < l.length := List.length_pos.mpr hnil
      by_cases hsmall : l.length ≤ C
      · have htot : (l.length + C - 1) / C = 1 :=
          Nat.div_eq_of_lt_le (by omega) (by omega)
        rw [htot]
        simp only [List.range_succ, List.range_zero, List.nil_append,
          List.map_cons, List.map_nil, List.flatten_cons, List.flatten_nil, List.append_nil,
          Nat.zero_mul, List.drop_zero]
        exact List.take_of_length_le hsmall
      · push_neg at hsmall
        have hdroplen : (l.drop C).length = l.length - C := by simp
        have htot : (l.length + C - 1) / C
            = ((l.drop C).length + C - 1) / C + 1 := by
          rw [hdroplen]
          have harith : l.length + C - 1 = (l.length - C + C - 1) + C := by omega
          rw [harith, Nat.add_div_right _ hC]
        rw [htot, List.range_succ_eq_map]
        simp only [List.map_cons, List.map_map, List.flatten_cons, Nat.zero_mul,
          List.drop_zero]
        have hmapeq :
            ((List.range (((l.drop C).length + C - 1) / C)).map
              ((fun i => (l.drop (i * C)).take C) ∘ Nat.succ))
            = (List.range (((l.drop C).length + C - 1) / C)).map
                (fun i => ((l.drop C).drop (i * C)).take C) := by
          refine List.map_congr_left fun i _ => ?_
          simp only [Function.comp_apply, List.drop_drop]
          congr 2
          have : Nat.succ i = i + 1 := rfl
          rw [this]
          ring
        rw [hmapeq, ih (l.drop C) (by omega)]
        exact List.take_append_drop C l

/-- C4 (amended): with fragment ceiling `C = max_packet_size − header_size`
positive, the transmitter produces exactly `(S + C − 1) / C` fragments, the
Nat form of `⌈S/C⌉` — which is 0, not 1, when `S = 0` — and concatenating
the fragment payloads in index order 0..total−1 reproduces the chunk's
bytes exactly. -/
theorem c4_fragment_count_round_trip (maxPacketSize : Nat)
    (audioBytes : List Nat) (timestampUs seqStart : Nat)
    (h : headerSize < maxPacketSize) :
    (createAudioPacketFields maxPacketSize audioBytes timestampUs seqStart).length
      = (audioBytes.length + (maxPacketSize - headerSize) - 1) /
          (maxPacketSize - headerSize) ∧
    ((createAudioPacketFields maxPacketSize audioBytes timestampUs seqStart).map
        PacketFields.payload).flatten = audioBytes := by
  have hC : 0 < maxPacketSize - headerSize := Nat.sub_pos_of_lt h
  constructor
  · simp [createAudioPacketFields]
  · have hjoin := join_take_drop_chunks (maxPacketSize - headerSize) hC
      audioBytes.length audioBytes le_rfl
    simpa [createAudioPacketFields, List.map_map, Function.comp] using hjoin

/-- C4 witness: a 3-byte chunk with the default 1400-byte packet ceiling
yields a single fragment whose payload round-trips. -/
theorem c4_fragment_count_round_trip_witness :
    headerSize < 1400 ∧
    ((createAudioPacketFields 1400 [3, 5, 7] 0 0).length
        = (([3, 5, 7] : List Nat).length + (1400 - headerSize) - 1) /
            (1400 - headerSize) ∧
      ((createAudioPacketFields 1400 [3, 5, 7] 0 0).map
          PacketFields.payload).flatten = [3, 5, 7]) :=
  ⟨by decide, c4_fragment_count_round_trip 1400 [3, 5, 7] 0 0 (by decide)⟩

/-- C5 counterexample: in the state `syncHighLatencyHighLoss` (current
depth 3 = `min_buffer`, latency mean 300 > 200, loss mean 10 > 5) the
claim's candidate — apply −2 then +2, clamp once at the end — is 3, equal
to the current depth, so the claim predicts no state change and no
callback; the code clamps each step (`max(3, 3−2) = 3`, then
`min(20, 3+2) = 5`), obtains 5, updates the depth and fires the callback
with 5. -/
theorem c5_counterexample_stepwise_vs_final_clamp :
    specCandidateFinalClamp syncHighLatencyHighLoss = 3 ∧
    calculateOptimalBufferSize syncHighLatencyHighLoss = 5 ∧
    (adjustBufferSize syncHighLatencyHighLoss).2 = some 5 ∧
    (adjustBufferSize syncHighLatencyHighLoss).1.currentBufferSize = 5 := by
  have hlat : getCurrentLatency syncHighLatencyHighLoss = 300 := by
    norm_num [getCurrentLatency, listMean, syncHighLatencyHighLoss]
  have hjit : getCurrentJitter syncHighLatencyHighLoss = 0 := by
    norm_num [getCurrentJitter, syncHighLatencyHighLoss]
  have hloss : getCurrentPacketLoss syncHighLatencyHighLoss = 10 := by
    norm_num [getCurrentPacketLoss, listMean, syncHighLatencyHighLoss]
  refine ⟨?_, ?_, ?_, ?_⟩ <;>
    simp only [specCandidateFinalClamp, calculateOptimalBufferSize, adjustBufferSize,
      latencyDelta, jitterDelta, lossDelta, hlat, hjit, hloss] <;>
    norm_num [syncHighLatencyHighLoss]

/-- C7 counterexample: on a fresh receiver (`last_sequence = -1`) the
first decoded packet with sequence 5 satisfies the claim's gap condition
`frame_sequence > last_seen + 1`, so the claim demands the loss counter
increase by `5 - (-1) - 1 = 5`; the code's additional `last_sequence >= 0`
guard skips the gap check and the counter stays 0. -/
theorem c7_counterexample_first_packet_gap :
    startReceptionState.lastSequence + 1 < (5 : Int) ∧
    (lossStep startReceptionState 5).packetsLost = 0 := by decide

/-- C7 (amended): once a packet has been seen (`last_seen ≥ 0`), each
further decoded packet with `frame_sequence > last_seen + 1` adds
`frame_sequence − last_seen − 1` to the loss counter; `last_seen` always
becomes `max(last_seen, frame_sequence)`; and from a fresh receiver the
arrivals `[1, 2, 4, 5]` raise the loss counter by exactly 1 and leave
`last_seen` at 5.  (The gap rule is skipped while `last_seen` is negative,
i.e. before the first arrival.) -/
theorem c7_loss_accounting (st : RecvLossState) (sequence : Nat)
    (h : 0 ≤ st.lastSequence) :
    (lossStep st sequence).packetsLost =
      (if st.lastSequence + 1 < (sequence : Int) then
        st.packetsLost + ((sequence : Int) - st.lastSequence - 1)
      else st.packetsLost) ∧
    (lossStep st sequence).lastSequence = max st.lastSequence (sequence : Int) ∧
    (processSequences startReceptionState [1, 2, 4, 5]).packetsLost = 1 ∧
    (processSequences startReceptionState [1, 2, 4, 5]).lastSequence = 5 := by
  refine ⟨?_, by simp [lossStep], by decide, by decide⟩
  by_cases hgt : st.lastSequence + 1 < (sequence : Int)
  · simp [lossStep, h, hgt]
  · simp [lossStep, h, hgt]

/-- C7 witness: from the state `last_seen = 2`, a packet with sequence 7
adds `7 - 2 - 1 = 4` to the loss counter and moves `last_seen` to 7. -/
theorem c7_loss_accounting_witness :
    0 ≤ (RecvLossState.mk 2 0).lastSequence ∧
    ((lossStep (RecvLossState.mk 2 0) 7).packetsLost =
      (if (RecvLossState.mk 2 0).lastSequence + 1 < ((7 : Nat) : Int) then
        (RecvLossState.mk 2 0).packetsLost +
          (((7 : Nat) : Int) - (RecvLossState.mk 2 0).lastSequence - 1)
      else (RecvLossState.mk 2 0).packetsLost) ∧
    (lossStep (RecvLossState.mk 2 0) 7).lastSequence =
      max (RecvLossState.mk 2 0).lastSequence ((7 : Nat) : Int) ∧
    (processSequences startReceptionState [1, 2, 4, 5]).packetsLost = 1 ∧
    (processSequences startReceptionState [1, 2, 4, 5]).lastSequence = 5) :=
  ⟨by decide, c7_loss_accounting (RecvLossState.mk 2 0) 7 (by decide)⟩

/-- Latency rule of `_calculate_optimal_buffer_size` expressed as one
immediately-clamped delta. -/
theorem latencyRuleEq (s : AudioSynchronizer) (x : Int) :
    (if s.maxLatencyMs < getCurrentLatency s then max s.minBufferSize (x - 2)
     else if getCurrentLatency s < s.targetLatencyMs * (1 / 2) then
       min s.maxBufferSize (x + 1)
     else x)
    = applyClampedDelta s.minBufferSize s.maxBufferSize x (latencyDelta s) := by
  by_cases h1 : s.maxLatencyMs < getCurrentLatency s
  · rw [if_pos h1, latencyDelta, if_pos h1, applyClampedDelta, if_pos (by norm_num)]
    norm_num [Int.sub_eq_add_neg]
  · rw [if_neg h1, latencyDelta, if_neg h1]
    by_cases h2 : getCurrentLatency s < s.targetLatencyMs * (1 / 2)
    · rw [if_pos h2, if_pos h2, applyClampedDelta, if_neg (by norm_num),
        if_pos (by norm_num)]
    · rw [if_neg h2, if_neg h2, applyClampedDelta, if_neg (by norm_num),
        if_neg (by norm_num)]

/-- Jitter rule of `_calculate_optimal_buffer_size` expressed as one
immediately-clamped delta. -/
theorem jitterRuleEq (s : AudioSynchronizer) (x : Int) :
    (if s.jitterThresholdMs < getCurrentJitter s then min s.maxBufferSize (x + 1)
     else x)
    = applyClampedDelta s.minBufferSize s.maxBufferSize x (jitterDelta s) := by
  by_cases h : s.jitterThresholdMs < getCurrentJitter s
  · rw [if_pos h, jitterDelta, if_pos h, applyClampedDelta, if_neg (by norm_num),
      if_pos (by norm_num)]
  · rw [if_neg h, jitterDelta, if_neg h, applyClampedDelta, if_neg (by norm_num),
      if_neg (by norm_num)]

/-- Loss rule of `_calculate_optimal_buffer_size` expressed as one
immediately-clamped delta. -/
theorem lossRuleEq (s : AudioSynchronizer) (x : Int) :
    (if (5 : ℚ) < getCurrentPacketLoss s then min s.maxBufferSize (x + 2)
     else if getCurrentPacketLoss s < 1 then max s.minBufferSize (x - 1)
     else x)
    = applyClampedDelta s.minBufferSize s.maxBufferSize x (lossDelta s) := by
  by_cases h1 : (5 : ℚ) < getCurrentPacketLoss s
  · rw [if_pos h1, lossDelta, if_pos h1, applyClampedDelta, if_neg (by norm_num),
      if_pos (by norm_num)]
  · rw [if_neg h1, lossDelta, if_neg h1]
    by_cases h2 : getCurrentPacketLoss s < 1
    · rw [if_pos h2, if_pos h2, applyClampedDelta, if_pos (by norm_num)]
      norm_num [Int.sub_eq_add_neg]
    · rw [if_neg h2, if_neg h2, applyClampedDelta, if_neg (by norm_num),
        if_neg (by norm_num)]

/-- C5 (amended): each control tick computes the candidate depth by
applying, in order, the latency rule (−2 above `max_latency`, +1 below
half the target), the jitter rule (+1 above `jitter_threshold`), and the
loss rule (+2 above 5 percent, −1 below 1 percent), with every decrease
floored at `min_buffer` and every increase capped at `max_buffer` as it is
applied (rather than by a single final clamp); only if the result differs
from the current depth does it commit the new depth, increment the
adjustment counter, and invoke the callback with the new value. -/
theorem c5_buffer_control_stepwise_clamped (s : AudioSynchronizer) :
    calculateOptimalBufferSize s = specCandidateStepwise s ∧
    adjustBufferSize s =
      (if specCandidateStepwise s = s.currentBufferSize then (s, none)
       else ({ s with currentBufferSize := specCandidateStepwise s,
                      syncAdjustments := s.syncAdjustments + 1 },
             some (specCandidateStepwise s))) := by
  have hcalc : calculateOptimalBufferSize s = specCandidateStepwise s := by
    simp only [calculateOptimalBufferSize, specCandidateStepwise, List.foldl]
    rw [latencyRuleEq, jitterRuleEq, lossRuleEq]
  refine ⟨hcalc, ?_⟩
  simp only [adjustBufferSize, hcalc]
  by_cases hc : specCandidateStepwise s = s.currentBufferSize
  · simp [hc]
  · simp [hc]

/-- C8 counterexample: with bounds `[3, 20]` and current depth 11,
`force_buffer_adjustment(25)` is rejected outright — the depth stays 11
and no callback fires — whereas the claim predicts the depth is clamped
to 20 and the callback is invoked with 20. -/
theorem c8_counterexample_out_of_range_rejected :
    (forceBufferAdjustment (mkAudioSynchronizer 50 200 3 20 10) 25).2 = none ∧
    (forceBufferAdjustment (mkAudioSynchronizer 50 200 3 20 10) 25).1.currentBufferSize
      = 11 := by decide

/-- C8 (amended): `force_buffer_adjustment(n)` applies the request only
when `n` lies within `[min_buffer_size, max_buffer_size]`, setting the
current depth to `n` and invoking the callback with `n`; an out-of-range
request is rejected with no state change and no callback. -/
theorem c8_force_buffer_in_range_only (s : AudioSynchronizer) (n : Int) :
    (s.minBufferSize ≤ n → n ≤ s.maxBufferSize →
      (forceBufferAdjustment s n).1.currentBufferSize = n ∧
      (forceBufferAdjustment s n).2 = some n) ∧
    ((n < s.minBufferSize ∨ s.maxBufferSize < n) →
      forceBufferAdjustment s n = (s, none)) := by
  constructor
  · intro h1 h2
    have hc : ¬ (n < s.minBufferSize ∨ s.maxBufferSize < n) := by omega
    simp [forceBufferAdjustment, hc]
  · intro h
    simp [forceBufferAdjustment, h]

/-- C8 witness: forcing the in-range size 5 on a default synchronizer sets
the depth to 5 and fires the callback with 5. -/
theorem c8_force_buffer_in_range_only_witness :
    (mkAudioSynchronizer 50 200 3 20 10).minBufferSize ≤ 5 ∧
    (5 : Int) ≤ (mkAudioSynchronizer 50 200 3 20 10).maxBufferSize ∧
    (forceBufferAdjustment (mkAudioSynchronizer 50 200 3 20 10) 5).1.currentBufferSize
        = 5 ∧
    (forceBufferAdjustment (mkAudioSynchronizer 50 200 3 20 10) 5).2 = some 5 :=
  ⟨by decide, by decide,
    ((c8_force_buffer_in_range_only (mkAudioSynchronizer 50 200 3 20 10) 5).1
      (by decide) (by decide)).1,
    ((c8_force_buffer_in_range_only (mkAudioSynchronizer 50 200 3 20 10) 5).1
      (by decide) (by decide)).2⟩

/-- C6 counterexample: `bufferWithExtraTail` is 25 bytes — a valid header
declaring `data_length = 0` plus one trailing byte, so the declared payload
length (0) differs from the number of trailing bytes actually present (1) —
yet `_parse_audio_packet` accepts it, contradicting the claim that decode
fails whenever the declared length does not equal the trailing byte count. -/
theorem c6_counterexample_extra_trailing_bytes :
    bufferWithExtraTail.length - headerSize = 1 ∧
    parsedDataLength bufferWithExtraTail = 0 ∧
    (parseAudioPacket bufferWithExtraTail).isSome = true := by decide

/-- C6 (amended): decode is a total function returning an explicit
failure (`none`), and it succeeds exactly when the buffer reaches the
24-byte header size, the magic matches, and the declared payload length is
at most — not necessarily equal to — the number of trailing bytes present;
surplus trailing bytes beyond the declared length are accepted and
ignored. -/
theorem c6_decode_failure_conditions (p : List Nat) :
    (parseAudioPacket p).isSome = true ↔
      headerSize ≤ p.length ∧ p.take 4 = oodaMagic ∧
        parsedDataLength p ≤ p.length - headerSize := by
  unfold parseAudioPacket parsedDataLength headerSize
  by_cases h1 : p.length < 24
  · rw [if_pos h1]
    simp only [Option.isSome_none, Bool.false_eq_true, false_iff]
    rintro ⟨hle, -, -⟩
    omega
  · rw [if_neg h1]
    by_cases h2 : p.take 4 = oodaMagic
    · rw [if_neg (fun hne => hne h2)]
      by_cases h3 : rdBE ((p.drop 20).take 4) ≤ p.length - 24
      · rw [if_neg ?short]
        case short =>
          simp only [List.length_take, List.length_drop, ne_eq, not_not]
          omega
        simp only [Option.isSome_some, true_iff]
        exact ⟨by omega, h2, h3⟩
      · rw [if_pos ?long]
        case long =>
          simp only [List.length_take, List.length_drop, ne_eq]
          omega
        simp only [Option.isSome_none, Bool.false_eq_true, false_iff]
        rintro ⟨-, -, hdl⟩
        exact h3 hdl
    · rw [if_pos h2]
      simp only [Option.isSome_none, Bool.false_eq_true, false_iff]
      rintro ⟨-, hmag, -⟩
      exact h2 hmag

/-- C10: while `last_sequence` is negative — as `start_reception` leaves
it (`-1`) — the gap check is skipped, so the first successfully decoded
packet never increments the loss counter, whatever its sequence number. -/
theorem c10_no_loss_counted_before_first_arrival (st : RecvLossState)
    (sequence : Nat) (h : st.lastSequence < 0) :
    (lossStep st sequence).packetsLost = st.packetsLost := by
  have h' : ¬ (0 ≤ st.lastSequence ∧ st.lastSequence + 1 < (sequence : Int)) := by
    rintro ⟨h0, -⟩; omega
  simp [lossStep, h']

/-- C10 witness: from the freshly reset state, a first packet with
sequence 1000 leaves the loss counter unchanged. -/
theorem c10_no_loss_counted_before_first_arrival_witness :
    startReceptionState.lastSequence < 0 ∧
    (lossStep startReceptionState 1000).packetsLost = startReceptionState.packetsLost :=
  ⟨by decide,
    c10_no_loss_counted_before_first_arrival startReceptionState 1000 (by decide)⟩

/-- `beBytes k n` always yields exactly `k` bytes. -/
theorem beBytes_length (k : Nat) : ∀ n : Nat, (beBytes k n).length = k := by
  induction k with
  | zero => intro n; rfl
  | succ k ih => intro n; simp [beBytes, ih]

/-- Reading one more trailing byte shifts the accumulated value by 256. -/
theorem rdBE_append_single (xs : List Nat) (b : Nat) :
    rdBE (xs ++ [b]) = rdBE xs * 256 + b := by
  simp [rdBE, List.foldl_append]

/-- `rdBE` inverts `beBytes` on values that fit in `k` bytes. -/
theorem rdBE_beBytes (k : Nat) : ∀ n : Nat, n < 256 ^ k → rdBE (beBytes k n) = n := by
  induction k with
  | zero =>
    intro n h
    have : n = 0 := by simpa using Nat.lt_one_iff.mp (by simpa using h)
    simp [this, beBytes, rdBE]
  | succ k ih =>
    intro n h
    have hdiv : n / 256 < 256 ^ k := by
      rw [Nat.div_lt_iff_lt_mul (by norm_num : 0 < 256)]
      calc n < 256 ^ (k + 1) := h
        _ = 256 ^ k * 256 := by ring
    rw [beBytes, rdBE_append_single, ih _ hdiv]
    omega

/-- C9: decoding a packet built by the encoder from header fields within
wire-format range (sequence and payload length in 32 bits, fragment index
and total in 16 bits, capture time in 64 bits) recovers exactly the same
header fields and payload bytes. -/
theorem c9_encode_decode_round_trip (f : PacketFields)
    (hs : f.sequence < 2 ^ 32) (ht : f.timestampUs < 2 ^ 64)
    (hi : f.fragmentIndex < 2 ^ 16) (hf : f.totalFragments < 2 ^ 16)
    (hp : f.payload.length < 2 ^ 32) :
    parseAudioPacket (encodePacket f) = some f := by
  obtain ⟨s, t, fi, tf, pl⟩ := f
  simp only at hs ht hi hf hp
  have hL : encodePacket ⟨s, t, fi, tf, pl⟩
      = oodaMagic ++ (beBytes 4 s ++ (beBytes 8 t ++ (beBytes 2 fi ++
          (beBytes 2 tf ++ (beBytes 4 pl.length ++ pl))))) := by
    simp [encodePacket, packHeader, List.append_assoc]
  set L := encodePacket ⟨s, t, fi, tf, pl⟩ with hLdef
  have hmagiclen : oodaMagic.length = 4 := by decide
  have d4 : L.drop 4 = beBytes 4 s ++ (beBytes 8 t ++ (beBytes 2 fi ++
      (beBytes 2 tf ++ (beBytes 4 pl.length ++ pl)))) := by
    rw [hL]; exact List.drop_left' hmagiclen
  have d8 : L.drop 8 = beBytes 8 t ++ (beBytes 2 fi ++
      (beBytes 2 tf ++ (beBytes 4 pl.length ++ pl))) := by
    rw [show (8 : Nat) = 4 + 4 from rfl, ← List.drop_drop, d4]
    exact List.drop_left' (beBytes_length 4 s)
  have d16 : L.drop 16 = beBytes 2 fi ++
      (beBytes 2 tf ++ (beBytes 4 pl.length ++ pl)) := by
    rw [show (16 : Nat) = 8 + 8 from rfl, ← List.drop_drop, d8]
    exact List.drop_left' (beBytes_length 8 t)
  have d18 : L.drop 18 = beBytes 2 tf ++ (beBytes 4 pl.length ++ pl) := by
    rw [show (18 : Nat) = 16 + 2 from rfl, ← List.drop_drop, d16]
    exact List.drop_left' (beBytes_length 2 fi)
  have d20 : L.drop 20 = beBytes 4 pl.length ++ pl := by
    rw [show (20 : Nat) = 18 + 2 from rfl, ← List.drop_drop, d18]
    exact List.drop_left' (beBytes_length 2 tf)
  have d24 : L.drop 24 = pl := by
    rw [show (24 : Nat) = 20 + 4 from rfl, ← List.drop_drop, d20]
    exact List.drop_left' (beBytes_length 4 pl.length)
  have hlen : L.length = 24 + pl.length := by
    rw [hL]
    simp [oodaMagic, beBytes_length]
    omega
  have e_magic : L.take 4 = oodaMagic := by
    rw [hL]; exact List.take_left' hmagiclen
  have e_seq : rdBE ((L.drop 4).take 4) = s := by
    rw [d4, List.take_left' (beBytes_length 4 s)]
    exact rdBE_beBytes 4 s (by norm_num at hs ⊢; omega)
  have e_t : rdBE ((L.drop 8).take 8) = t := by
    rw [d8, List.take_left' (beBytes_length 8 t)]
    exact rdBE_beBytes 8 t (by norm_num at ht ⊢; omega)
  have e_fi : rdBE ((L.drop 16).take 2) = fi := by
    rw [d16, List.take_left' (beBytes_length 2 fi)]
    exact rdBE_beBytes 2 fi (by norm_num at hi ⊢; omega)
  have e_tf : rdBE ((L.drop 18).take 2) = tf := by
    rw [d18, List.take_left' (beBytes_length 2 tf)]
    exact rdBE_beBytes 2 tf (by norm_num at hf ⊢; omega)
  have e_dl : rdBE ((L.drop 20).take 4) = pl.length := by
    rw [d20, List.take_left' (beBytes_length 4 pl.length)]
    exact rdBE_beBytes 4 pl.length (by norm_num at hp ⊢; omega)
  have hnotshort : ¬ L.length < headerSize := by
    rw [hlen]; unfold headerSize; omega
  unfold parseAudioPacket
  rw [if_neg hnotshort, if_neg (fun hne => hne e_magic), e_dl, d24,
    List.take_length, if_neg (fun hne => hne rfl), e_seq, e_t, e_fi, e_tf]

/-- C9 witness: a concrete in-range packet (sequence 1, capture time 2 µs,
single fragment, payload `[5]`) round-trips through encode and decode. -/
theorem c9_encode_decode_round_trip_witness :
    (PacketFields.mk 1 2 0 1 [5]).sequence < 2 ^ 32 ∧
    parseAudioPacket (encodePacket (PacketFields.mk 1 2 0 1 [5]))
      = some (PacketFields.mk 1 2 0 1 [5]) :=
  ⟨by norm_num, c9_encode_decode_round_trip (PacketFields.mk 1 2 0 1 [5])
    (by norm_num) (by norm_num) (by norm_num) (by norm_num) (by norm_num)⟩

end AudioCallApp
